import Mathlib

/-!
Verification of the batch-write pipeline in `aioscrapy/pipelines/db.py`:
the SQL statement builder (`SqlFormat`), the grouping cache (`ItemCache`),
the pipeline controller (`DBPipelineBase`) and the MySQL destination writer
(`MysqlPipeline._save`), shallowly embedded as pure Lean functions.

Python dictionaries are modelled as association lists `List (String × α)`
(insertion-ordered, unique keys in any state a real `dict` can reach);
exceptions are modelled with `Except String` or by returning the state at
raise time together with an error value; the destination databases are
modelled by an oracle assigning each connection alias an outcome.
-/

namespace AioDb

/-- The universe of Python values the pipeline manipulates: record column
values, plus the control attributes (`save_table_name` etc.). `vNone`
models Python's `None`. -/
inductive PyVal where
  | vNone : PyVal
  | vStr : String → PyVal
  | vInt : Int → PyVal
  | vStrList : List String → PyVal
deriving DecidableEq, Repr

/-- A buffered row: the record's values positioned per the group's field list. -/
abbrev Row := List PyVal

/-- A Python `dict` as an insertion-ordered association list. -/
abbrev Dict (α : Type) := List (String × α)

/-- `d.get(k)` / `d[k]` lookup: first binding for `k`. -/
def alGet {α : Type} : Dict α → String → Option α
  | [], _ => none
  | (k', v) :: rest, k => if k' = k then some v else alGet rest k

/-- Lookup with a default. -/
def alGetD {α : Type} (l : Dict α) (k : String) (d : α) : α :=
  (alGet l k).getD d

/-- `d[k] = v`: overwrite in place if the key exists (keeping its position,
as Python dicts do), else append at the end. -/
def alSet {α : Type} : Dict α → String → α → Dict α
  | [], k, v => [(k, v)]
  | (k', v') :: rest, k, v =>
    if k' = k then (k, v) :: rest else (k', v') :: alSet rest k v

/-- `d.pop(k, ...)`'s removal effect: drop the binding for `k`.
(A real dict has at most one binding per key.) -/
def alErase {α : Type} (l : Dict α) (k : String) : Dict α :=
  l.filter (fun p => decide (p.1 ≠ k))

/-! ## `SqlFormat`: the statement builder -/

/-- `SqlFormat.ck_insert`: ClickHouse insert head; the triple-quoted f-string
ends with a space after `VALUES`. -/
def ck_insert (table : String) (fields : List String) : String :=
  "INSERT INTO " ++ table ++ " (" ++ String.intercalate "," fields ++ ") VALUES "

/-- `SqlFormat.mysql_insert`: plain parameterized insert, one `%s`
placeholder per field. -/
def mysql_insert (table : String) (fields : List String) : String :=
  let placeholder := String.intercalate "," (List.replicate fields.length "%s")
  "INSERT INTO " ++ table ++ " (" ++ String.intercalate "," fields ++
    ") VALUES (" ++ placeholder ++ ")"

/-- `SqlFormat.mysql_ignore_insert`: duplicate-key-ignoring insert. -/
def mysql_ignore_insert (table : String) (fields : List String) : String :=
  let placeholder := String.intercalate "," (List.replicate fields.length "%s")
  "INSERT IGNORE INTO " ++ table ++ " (" ++ String.intercalate "," fields ++
    ") VALUES (" ++ placeholder ++ ")"

/-- `SqlFormat.mysql_update_insert`: upsert; an empty `update_fields` list
defaults to all fields. -/
def mysql_update_insert (table : String) (fields update_fields : List String) : String :=
  let placeholder := String.intercalate "," (List.replicate fields.length "%s")
  let update_fields' := if update_fields = [] then fields else update_fields
  let updates := String.intercalate ","
    (update_fields'.map (fun key => key ++ " = VALUES(" ++ key ++ ")"))
  "INSERT INTO " ++ table ++ " (" ++ String.intercalate "," fields ++
    ") VALUES (" ++ placeholder ++ ") ON DUPLICATE KEY UPDATE " ++ updates

/-- `getattr(self, name)` on a `SqlFormat` instance, restricted to the
builder methods: returns the bound builder when `name` names one. -/
def sqlFormatAttr (name : String) :
    Option (String → List String → List String → String) :=
  if name = "ck_insert" then some (fun t f _ => ck_insert t f)
  else if name = "mysql_insert" then some (fun t f _ => mysql_insert t f)
  else if name = "mysql_ignore_insert" then some (fun t f _ => mysql_ignore_insert t f)
  else if name = "mysql_update_insert" then some mysql_update_insert
  else none

/-- `SqlFormat.__call__` (`get_sql`). The source reads
`if getattr(self, f'{db_type}_{insert_type}'): ... return func(*args)` and
then `raise Exception(f"不支持该写入类型： {db_type}_{insert_type}")`.
`getattr` with no default raises `AttributeError` when the attribute is
missing, so for an unregistered (dialect, mode) pair the call fails with an
`AttributeError`, and the descriptive `raise` line is unreachable (a bound
method is always truthy, so the registered branch always returns). -/
def get_sql (table : String) (fields update_fields : List String)
    (db_type insert_type : String) : Except String String :=
  let name := db_type ++ "_" ++ insert_type
  match sqlFormatAttr name with
  | some func => .ok (func table fields update_fields)
  | none =>
      .error ("AttributeError: SqlFormat object has no attribute " ++ name)

/-- The descriptive message of the unreachable `raise` in
`SqlFormat.__call__`. -/
def unsupportedModeMsg (db_type insert_type : String) : String :=
  "不支持该写入类型： " ++ db_type ++ "_" ++ insert_type

/-! ## `ItemCache`: the grouping cache -/

/-- The five parallel dicts of `ItemCache`, all keyed by the composite
`cache_key`, plus the dialect fixed at construction. -/
structure ItemCache where
  db_type : String
  item_cache : Dict (List Row)
  fields_cache : Dict (List String)
  table_cache : Dict String
  insert_sql_cache : Dict String
  db_alias_cache : Dict (List String)
deriving DecidableEq, Repr

/-- `ItemCache.__init__`: every dict empty. -/
def ItemCache.init (db_type : String) : ItemCache :=
  { db_type := db_type, item_cache := [], fields_cache := [],
    table_cache := [], insert_sql_cache := [], db_alias_cache := [] }

/-- The `cache_key` line of `parse_item_to_cache`:
`''.join(fields + update_fields) + insert_type + table_name`. -/
def deriveKey (fields update_fields : List String)
    (insert_type table_name : String) : String :=
  String.join (fields ++ update_fields) ++ insert_type ++ table_name

/-- The row comprehension `[item[field] for field in fields]`: looks each
field of the group's stored field list up in the stripped record,
left to right, raising `KeyError` at the first field the record lacks. -/
def extractRow (item : Dict PyVal) : List String → Except String Row
  | [] => .ok []
  | f :: fs =>
    match alGet item f with
    | none => .error ("KeyError: " ++ f)
    | some v => (extractRow item fs).map (fun r => v :: r)

/-- `self.item_cache[cache_key].append([item[field] for field in
self.fields_cache[cache_key]])` and the `(cache_key, len(...))` result:
the last two lines of `parse_item_to_cache`. -/
def appendRow (c : ItemCache) (item4 : Dict PyVal) (cache_key : String)
    (stored_fields : List String) : ItemCache × Except String (String × Nat) :=
  match extractRow item4 stored_fields with
  | .error e => (c, .error e)
  | .ok row =>
      let rows := alGetD c.item_cache cache_key [] ++ [row]
      ({ c with item_cache := alSet c.item_cache cache_key rows },
        .ok (cache_key, rows.length))

/-- `parse_item_to_cache` from `fields = list(item.keys())` on: key
derivation, lazy group creation (statement built once), and the row
append. -/
def parseRest (c : ItemCache) (item3 : Dict PyVal) (table_name insert_type : String)
    (update_fields save_db_alias : List String) :
    ItemCache × Except String (String × Nat) :=
  let item4 := alErase item3 "save_db_alias"
  let fields := item4.map Prod.fst
  let cache_key := deriveKey fields update_fields insert_type table_name
  match alGet c.fields_cache cache_key with
  | some stored_fields =>
      appendRow c item4 cache_key stored_fields
  | none =>
      -- lazy creation: the four dicts are populated before the statement
      -- is built, so a statement-builder failure leaves them populated
      let c1 := { c with
        db_alias_cache := alSet c.db_alias_cache cache_key save_db_alias,
        table_cache := alSet c.table_cache cache_key table_name,
        fields_cache := alSet c.fields_cache cache_key fields,
        item_cache := alSet c.item_cache cache_key [] }
      match get_sql table_name fields update_fields c.db_type insert_type with
      | .error e => (c1, .error e)
      | .ok sql =>
          let c2 := { c1 with
            insert_sql_cache := alSet c.insert_sql_cache cache_key sql }
          appendRow c2 item4 cache_key fields

/-- `ItemCache.parse_item_to_cache`. Returns the cache state at exit
together with either the raised exception or `(cache_key, buffered count)`.
All mutations the Python method performed before raising are reflected in
the returned state. Model notes: a non-string `save_table_name` (other than
`None`) or non-string-typed mode/update-fields/aliases make the Python code
raise `TypeError` at the later string/list operations that consume them;
the model raises `"TypeError"` for those records up front. -/
def parse_item_to_cache (c : ItemCache) (item : Dict PyVal) :
    ItemCache × Except String (String × Nat) :=
  -- table_name = item.pop('save_table_name')  (KeyError if absent)
  match alGet item "save_table_name" with
  | none => (c, .error "KeyError: save_table_name")
  | some tv =>
    let item1 := alErase item "save_table_name"
    match tv with
    | .vNone => (c, .error "please set save_table_name")  -- `if table_name is None`
    | .vInt _ | .vStrList _ => (c, .error "TypeError")
    | .vStr table_name =>
      -- insert_type = item.pop('save_insert_type', 'insert')
      match (alGet item1 "save_insert_type").getD (.vStr "insert") with
      | .vStr insert_type =>
        let item2 := alErase item1 "save_insert_type"
        -- update_fields = item.pop('save_update_fields', [])
        match (alGet item2 "save_update_fields").getD (.vStrList []) with
        | .vStrList update_fields =>
          let item3 := alErase item2 "save_update_fields"
          -- save_db_alias = item.pop('save_db_alias', ['default']);
          -- a bare string is wrapped into a one-element list
          match (alGet item3 "save_db_alias").getD (.vStrList ["default"]) with
          | .vStr s => parseRest c item3 table_name insert_type update_fields [s]
          | .vStrList save_db_alias =>
              parseRest c item3 table_name insert_type update_fields save_db_alias
          | _ => (c, .error "TypeError")
        | _ => (c, .error "TypeError")
      | _ => (c, .error "TypeError")

/-! ## `MysqlPipeline._save`: the destination writer

Each alias's database interaction is modelled by an oracle
`w : String → AliasOutcome`: acquiring the scoped connection (`get_manager
.get(alias, ping=True)`) either raises or yields a connection on which
`cursor.executemany` + `conn.commit` either raise or report an affected-row
count. -/

/-- What the external database does for one alias during one flush. -/
inductive AliasOutcome where
  /-- `get_manager(...).get(alias, ping=True)` itself raises
  (e.g. the pool cannot produce a live connection). -/
  | acquireError : String → AliasOutcome
  /-- `cursor.executemany` or `conn.commit` raises. -/
  | execError : String → AliasOutcome
  /-- The batched write succeeds, affecting `n` rows. -/
  | ok : Nat → AliasOutcome
deriving DecidableEq, Repr

/-- Whether the oracle makes connection acquisition itself raise for this
alias. -/
def AliasOutcome.isAcquireError : AliasOutcome → Bool
  | .acquireError _ => true
  | _ => false

/-- The observable result recorded for one alias by `_save`'s loop body. -/
inductive AliasResult where
  /-- Committed; the `logger.info` line reports the affected count. -/
  | committed : Nat → AliasResult
  /-- The inner `except` ran: `conn.rollback()` then `logger.exception`. -/
  | rolledBack : String → AliasResult
deriving DecidableEq, Repr

/-- The result `_save`'s loop body records for an alias whose connection
was acquired: commit on success, rollback on an execution error. (The
`acquireError` case is arbitrary; it is excluded wherever this is used.) -/
def AliasOutcome.toResult : AliasOutcome → AliasResult
  | .execError e => .rolledBack e
  | .ok n => .committed n
  | .acquireError e => .rolledBack e

/-- The `for alias in self.cache.db_alias_cache[cache_key]` loop of
`MysqlPipeline._save`: per-alias results in order, plus the exception (if
any) escaping the loop. An `execError` is caught by the inner
`try/except` (rollback, log, continue with the next alias); an
`acquireError` happens outside the inner `try` and escapes. -/
def saveLoop (w : String → AliasOutcome) : List String →
    List (String × AliasResult) × Option String
  | [] => ([], none)
  | a :: rest =>
    match w a with
    | .acquireError e => ([], some e)
    | .execError e =>
        let (r, esc) := saveLoop w rest
        ((a, .rolledBack e) :: r, esc)
    | .ok n =>
        let (r, esc) := saveLoop w rest
        ((a, .committed n) :: r, esc)

/-- `MysqlPipeline._save(cache_key)`: run the per-alias loop inside
`try: ... finally: self.cache.item_cache[cache_key] = []` — the buffer is
reset to empty on every exit path, caught or escaping. Returns the new
cache, the per-alias results, and the escaping exception if any. -/
def mysql_save (c : ItemCache) (cache_key : String)
    (w : String → AliasOutcome) :
    ItemCache × List (String × AliasResult) × Option String :=
  let aliases := alGetD c.db_alias_cache cache_key []
  let r := saveLoop w aliases
  ({ c with item_cache := alSet c.item_cache cache_key [] }, r.1, r.2)

/-! ## `DBPipelineBase` / `MysqlPipeline`: the pipeline controller

The `async` methods below run entirely under `self.lock`, so each is
modelled as one atomic state transformation. A flush performed while
handling a record or sweeping is recorded as an event carrying the rows
drained by that flush. -/

/-- Controller state: the flush threshold (`SAVE_CACHE_NUM`, default 500),
the sweep interval (`SAVE_CACHE_INTERVAL`, default 10, not used by the pure
transitions) and the cache. -/
structure Pipeline where
  cache_num : Nat
  save_cache_interval : Nat
  cache : ItemCache
deriving DecidableEq, Repr

/-- `DBPipelineBase.__init__` with the settings' defaults, for the MySQL
pipeline (`MysqlPipeline.from_settings` fixes `db_type = 'mysql'`). -/
def Pipeline.init : Pipeline :=
  { cache_num := 500, save_cache_interval := 10, cache := ItemCache.init "mysql" }

/-- Observable actions of the controller, in program order. -/
inductive Event where
  /-- `self.save_interval_task.cancel()` was called. -/
  | cancelTask : Event
  /-- `self._save(key)` ran, draining exactly `rows` from group `key`. -/
  | flush : String → List Row → Event
deriving DecidableEq, Repr

/-- `DBPipelineBase.save_item` (the body of `process_item`): under the
lock, admit the record; if the resulting buffer length reaches the
threshold, flush that group immediately. Returns the new state, the
admit result (or the escaping exception), and the flush events. -/
def save_item (p : Pipeline) (w : String → AliasOutcome) (item : Dict PyVal) :
    Pipeline × Except String (String × Nat) × List Event :=
  match parse_item_to_cache p.cache item with
  | (c', .error e) => ({ p with cache := c' }, .error e, [])
  | (c', .ok (cache_key, cache_count)) =>
    if cache_count ≥ p.cache_num then
      let drained := alGetD c'.item_cache cache_key []
      let c'' := (mysql_save c' cache_key w).1
      ({ p with cache := c'' }, .ok (cache_key, cache_count),
        [.flush cache_key drained])
    else
      ({ p with cache := c' }, .ok (cache_key, cache_count), [])

/-- The sweep shared by `close` and `save_interval`:
`for cache_key, items in self.cache.item_cache.items(): items and await
self._save(cache_key)` — flush each group whose buffer is non-empty,
skip the empty ones. The iteration ranges over the entries present when
the loop starts; `_save` only rewrites the value of the key being
processed. The loop body has no `try`, so an exception escaping `_save`
(an acquisition-stage error) aborts the remainder of the sweep: the
aborting group's buffer was still cleared by `_save`'s `finally`, but the
later groups are neither flushed nor cleared, and the exception propagates
(third component). -/
def sweepLoop (w : String → AliasOutcome) :
    ItemCache → List (String × List Row) → ItemCache × List Event × Option String
  | c, [] => (c, [], none)
  | c, (cache_key, items) :: rest =>
    if items = [] then sweepLoop w c rest
    else
      let drained := alGetD c.item_cache cache_key []
      let r := mysql_save c cache_key w
      match r.2.2 with
      | some e => (r.1, [.flush cache_key drained], some e)
      | none =>
          let s := sweepLoop w r.1 rest
          (s.1, .flush cache_key drained :: s.2.1, s.2.2)

/-- `DBPipelineBase.close`: one sweep under the lock; an exception escaping
`_save` escapes `close` itself. -/
def Pipeline.close (p : Pipeline) (w : String → AliasOutcome) :
    Pipeline × List Event × Option String :=
  let r := sweepLoop w p.cache p.cache.item_cache
  ({ p with cache := r.1 }, r.2.1, r.2.2)

/-- `DBPipelineBase.close_spider`: first
`self.save_interval_task and self.save_interval_task.cancel()` — the
periodic task, when one exists, is cancelled before the drain — then
`await self.close()`, whose escaping exception (if any) propagates. -/
def close_spider (p : Pipeline) (taskExists : Bool)
    (w : String → AliasOutcome) : Pipeline × List Event × Option String :=
  let cancelEvs := if taskExists then [Event.cancelTask] else []
  let r := Pipeline.close p w
  (r.1, cancelEvs ++ r.2.1, r.2.2)

/-- Folding a sequence of records through `parse_item_to_cache`
(`ItemCache.admit` on its own, with no controller around it). -/
def admitSeq (c : ItemCache) : List (Dict PyVal) → ItemCache
  | [] => c
  | item :: rest => admitSeq (parse_item_to_cache c item).1 rest

/-- The key-set invariant every reachable `ItemCache` satisfies: a key with
a row buffer also has a stored field list (the five dicts are always
populated together). -/
def ItemCache.Wf (c : ItemCache) : Prop :=
  ∀ k ∈ c.item_cache.map Prod.fst, k ∈ c.fields_cache.map Prod.fst

instance (c : ItemCache) : Decidable c.Wf := by
  unfold ItemCache.Wf
  infer_instance

/-! ## Association-list lemmas -/

theorem alGet_alSet_self {α : Type} (l : Dict α) (k : String) (v : α) :
    alGet (alSet l k v) k = some v := by
  induction l with
  | nil => simp [alGet, alSet]
  | cons p rest ih =>
    obtain ⟨k', v'⟩ := p
    by_cases h : k' = k
    · simp [alSet, h, alGet]
    · simp [alSet, h, alGet, ih]

theorem alGet_alSet_ne {α : Type} (l : Dict α) {k k' : String} (v : α)
    (h : k ≠ k') : alGet (alSet l k v) k' = alGet l k' := by
  induction l with
  | nil => simp [alGet, alSet, h]
  | cons p rest ih =>
    obtain ⟨k'', v''⟩ := p
    by_cases h' : k'' = k
    · simp [alSet, h', alGet, h]
    · simp [alSet, h', alGet, ih]

theorem alGet_eq_none_iff {α : Type} (l : Dict α) (k : String) :
    alGet l k = none ↔ k ∉ l.map Prod.fst := by
  induction l with
  | nil => simp [alGet]
  | cons p rest ih =>
    obtain ⟨k', v'⟩ := p
    by_cases h : k' = k
    · simp [alGet, h]
    · simp [alGet, h, ih, Ne.symm h]

theorem alGet_isSome_of_mem {α : Type} {l : Dict α} {k : String}
    (h : k ∈ l.map Prod.fst) : ∃ v, alGet l k = some v := by
  cases hx : alGet l k with
  | none => exact absurd h ((alGet_eq_none_iff l k).mp hx)
  | some v => exact ⟨v, rfl⟩

theorem alGet_of_mem_nodup {α : Type} {l : Dict α} {p : String × α}
    (hnd : (l.map Prod.fst).Nodup) (hp : p ∈ l) :
    alGet l p.1 = some p.2 := by
  induction l with
  | nil => cases hp
  | cons q rest ih =>
    obtain ⟨k', v'⟩ := q
    simp only [List.map_cons, List.nodup_cons] at hnd
    rcases List.mem_cons.mp hp with h | h
    · subst h; simp [alGet]
    · have : k' ≠ p.1 := by
        intro he
        exact hnd.1 (he ▸ List.mem_map_of_mem Prod.fst h)
      simp [alGet, this, ih hnd.2 h]

theorem alErase_cons_self {α : Type} (k : String) (v : α) (l : Dict α) :
    alErase ((k, v) :: l) k = alErase l k := by
  simp [alErase]

theorem alErase_cons_ne {α : Type} {k k' : String} (v : α) (l : Dict α)
    (h : k' ≠ k) : alErase ((k', v) :: l) k = (k', v) :: alErase l k := by
  simp [alErase, h]

theorem alErase_eq_of_not_mem {α : Type} {l : Dict α} {k : String}
    (h : k ∉ l.map Prod.fst) : alErase l k = l := by
  rw [alErase, List.filter_eq_self]
  intro p hp
  simp only [decide_eq_true_eq]
  intro he
  exact h (he ▸ List.mem_map_of_mem Prod.fst hp)

theorem extractRow_eq (item : Dict PyVal) (F : List String)
    (h : ∀ f ∈ F, f ∈ item.map Prod.fst) :
    extractRow item F = .ok (F.map (fun f => alGetD item f .vNone)) := by
  induction F with
  | nil => rfl
  | cons f fs ih =>
    obtain ⟨v, hv⟩ := alGet_isSome_of_mem (h f (List.mem_cons_self f fs))
    simp [extractRow, hv, ih (fun g hg => h g (List.mem_cons_of_mem f hg)), alGetD,
      Except.map]

/-! ## Same-signature grouping -/

/-- The four control attributes stripped from every record. -/
def controlKeys : List String :=
  ["save_table_name", "save_insert_type", "save_update_fields", "save_db_alias"]

/-- A record for table `tbl` with write mode `mode`, update fields `upd`,
default destination aliases, and data columns `data`. -/
def mkItem (tbl mode : String) (upd : List String) (data : Dict PyVal) :
    Dict PyVal :=
  ("save_table_name", .vStr tbl) :: ("save_insert_type", .vStr mode) ::
    ("save_update_fields", .vStrList upd) :: data

/-- The row buffered for `data`: its values positioned per the field list
`F`. -/
def rowOf (F : List String) (data : Dict PyVal) : Row :=
  F.map (fun f => alGetD data f .vNone)

/-- A cache holding exactly one group, fully populated. -/
def groupCache (db tbl mode sql : String) (upd F aliases : List String)
    (rows : List Row) : ItemCache :=
  { db_type := db,
    item_cache := [(deriveKey F upd mode tbl, rows)],
    fields_cache := [(deriveKey F upd mode tbl, F)],
    table_cache := [(deriveKey F upd mode tbl, tbl)],
    insert_sql_cache := [(deriveKey F upd mode tbl, sql)],
    db_alias_cache := [(deriveKey F upd mode tbl, aliases)] }

/-! ## Inversion lemmas: what a successful admit did to the cache -/

theorem appendRow_ok {c : ItemCache} {item4 : Dict PyVal} {cache_key : String}
    {sf : List String} {c' : ItemCache} {k : String} {n : Nat}
    (h : appendRow c item4 cache_key sf = (c', .ok (k, n))) :
    k = cache_key ∧
    ∃ row, extractRow item4 sf = .ok row ∧
      c' = { c with item_cache := alSet c.item_cache cache_key (alGetD c.item_cache cache_key [] ++ [row]) } ∧
      n = (alGetD c.item_cache cache_key []).length + 1 := by
  unfold appendRow at h
  cases he : extractRow item4 sf with
  | error e => rw [he] at h; simp at h
  | ok row =>
    rw [he] at h
    simp only [Prod.mk.injEq, Except.ok.injEq] at h
    obtain ⟨hc, hk, hn⟩ := h
    exact ⟨hk.symm, row, rfl, hc.symm, by simp [hn.symm]⟩

/-- A raising path never produces an admit result. -/
theorem pair_error_ne_ok {α β : Type} {c c' : α} {e : String} {v : β}
    (h : ((c, (Except.error e : Except String β)) = (c', Except.ok v))) :
    False := by
  simp at h

theorem parseRest_ok_appends {c : ItemCache} {item3 : Dict PyVal}
    {tn it : String} {uf da : List String} {c' : ItemCache} {key : String}
    {cnt : Nat} (hwf : c.Wf)
    (h : parseRest c item3 tn it uf da = (c', .ok (key, cnt))) :
    ∃ row, alGetD c'.item_cache key [] = alGetD c.item_cache key [] ++ [row] ∧
      cnt = (alGetD c.item_cache key []).length + 1 := by
  simp only [parseRest] at h
  split at h
  · -- the group already exists: a plain append
    obtain ⟨hk, row, _, hc, hn⟩ := appendRow_ok h
    subst hk
    subst hc
    exact ⟨row, by simp [alGetD, alGet_alSet_self], hn⟩
  · -- fresh group: `Wf` says its row buffer did not exist either
    next hsf =>
    have hold : alGet c.item_cache
        (deriveKey ((alErase item3 "save_db_alias").map Prod.fst) uf it tn) = none :=
      (alGet_eq_none_iff _ _).mpr
        (fun hmem => (alGet_eq_none_iff _ _).mp hsf (hwf _ hmem))
    split at h
    · exact (pair_error_ne_ok h).elim
    · obtain ⟨hk, row, _, hc, hn⟩ := appendRow_ok h
      subst hk
      subst hc
      refine ⟨row, ?_, ?_⟩
      · simp [alGetD, alGet_alSet_self, hold]
      · simpa [alGetD, alGet_alSet_self, hold] using hn

theorem parse_ok_appends {c : ItemCache} {item : Dict PyVal}
    {c' : ItemCache} {key : String} {cnt : Nat} (hwf : c.Wf)
    (h : parse_item_to_cache c item = (c', .ok (key, cnt))) :
    ∃ row, alGetD c'.item_cache key [] = alGetD c.item_cache key [] ++ [row] ∧
      cnt = (alGetD c.item_cache key []).length + 1 := by
  simp only [parse_item_to_cache] at h
  repeat'
    first
      | exact parseRest_ok_appends hwf h
      | exact (pair_error_ne_ok h).elim
      | split at h

/-! ## Step lemmas for same-signature sequences -/

theorem parse_mkItem_init (tbl mode sql : String) (upd F : List String)
    (d : Dict PyVal)
    (hd : d.map Prod.fst = F)
    (hctl : ∀ f ∈ F, f ∉ controlKeys)
    (hsql : get_sql tbl F upd "mysql" mode = .ok sql) :
    parse_item_to_cache (ItemCache.init "mysql") (mkItem tbl mode upd d) =
      (groupCache "mysql" tbl mode sql upd F ["default"] [rowOf F d],
        .ok (deriveKey F upd mode tbl, 1)) := by
  have h1 : "save_table_name" ∉ d.map Prod.fst := by
    rw [hd]; intro hmem; exact hctl _ hmem (by decide)
  have h2 : "save_insert_type" ∉ d.map Prod.fst := by
    rw [hd]; intro hmem; exact hctl _ hmem (by decide)
  have h3 : "save_update_fields" ∉ d.map Prod.fst := by
    rw [hd]; intro hmem; exact hctl _ hmem (by decide)
  have h4 : "save_db_alias" ∉ d.map Prod.fst := by
    rw [hd]; intro hmem; exact hctl _ hmem (by decide)
  have hd' : ∀ f ∈ F, f ∈ d.map Prod.fst := by rw [hd]; exact fun f hf => hf
  have e1 : alErase d "save_table_name" = d := alErase_eq_of_not_mem h1
  have e2 : alErase d "save_insert_type" = d := alErase_eq_of_not_mem h2
  have e3 : alErase d "save_update_fields" = d := alErase_eq_of_not_mem h3
  have e4 : alErase d "save_db_alias" = d := alErase_eq_of_not_mem h4
  have g4 : alGet d "save_db_alias" = none := (alGet_eq_none_iff _ _).mpr h4
  simp [parse_item_to_cache, parseRest, appendRow, mkItem, alGet,
    alErase_cons_self, alErase_cons_ne, e1, e2, e3, e4, g4, hd, hsql,
    extractRow_eq d F hd', alGetD, alGet_alSet_self, groupCache,
    ItemCache.init, alSet, rowOf]

theorem parse_mkItem_group (tbl mode sql : String) (upd F aliases : List String)
    (rows : List Row) (d : Dict PyVal)
    (hd : d.map Prod.fst = F)
    (hctl : ∀ f ∈ F, f ∉ controlKeys) :
    parse_item_to_cache (groupCache "mysql" tbl mode sql upd F aliases rows)
        (mkItem tbl mode upd d) =
      (groupCache "mysql" tbl mode sql upd F aliases (rows ++ [rowOf F d]),
        .ok (deriveKey F upd mode tbl, rows.length + 1)) := by
  have h1 : "save_table_name" ∉ d.map Prod.fst := by
    rw [hd]; intro hmem; exact hctl _ hmem (by decide)
  have h2 : "save_insert_type" ∉ d.map Prod.fst := by
    rw [hd]; intro hmem; exact hctl _ hmem (by decide)
  have h3 : "save_update_fields" ∉ d.map Prod.fst := by
    rw [hd]; intro hmem; exact hctl _ hmem (by decide)
  have h4 : "save_db_alias" ∉ d.map Prod.fst := by
    rw [hd]; intro hmem; exact hctl _ hmem (by decide)
  have hd' : ∀ f ∈ F, f ∈ d.map Prod.fst := by rw [hd]; exact fun f hf => hf
  have e1 : alErase d "save_table_name" = d := alErase_eq_of_not_mem h1
  have e2 : alErase d "save_insert_type" = d := alErase_eq_of_not_mem h2
  have e3 : alErase d "save_update_fields" = d := alErase_eq_of_not_mem h3
  have e4 : alErase d "save_db_alias" = d := alErase_eq_of_not_mem h4
  have g4 : alGet d "save_db_alias" = none := (alGet_eq_none_iff _ _).mpr h4
  simp [parse_item_to_cache, parseRest, appendRow, mkItem, alGet,
    alErase_cons_self, alErase_cons_ne, e1, e2, e3, e4, g4, hd,
    extractRow_eq d F hd', alGetD, alGet_alSet_self, groupCache, alSet,
    rowOf]

theorem admitSeq_group_aux (tbl mode sql : String) (upd F aliases : List String)
    (datas : List (Dict PyVal)) (rows : List Row)
    (hd : ∀ d ∈ datas, d.map Prod.fst = F)
    (hctl : ∀ f ∈ F, f ∉ controlKeys) :
    admitSeq (groupCache "mysql" tbl mode sql upd F aliases rows)
        (datas.map (mkItem tbl mode upd)) =
      groupCache "mysql" tbl mode sql upd F aliases
        (rows ++ datas.map (rowOf F)) := by
  induction datas generalizing rows with
  | nil => simp [admitSeq]
  | cons d rest ih =>
    have hstep := parse_mkItem_group tbl mode sql upd F aliases rows d
      (hd d (List.mem_cons_self d rest)) hctl
    simp only [List.map_cons, admitSeq, hstep]
    rw [ih (rows ++ [rowOf F d]) (fun d' hd' => hd d' (List.mem_cons_of_mem d hd'))]
    simp

/-! ## The shutdown / periodic sweep -/

theorem sweepLoop_preserves (w : String → AliasOutcome)
    (l : List (String × List Row)) (k : String) :
    ∀ c : ItemCache, k ∉ l.map Prod.fst →
      alGet (sweepLoop w c l).1.item_cache k = alGet c.item_cache k := by
  induction l with
  | nil => intro c _; rfl
  | cons e rest ih =>
    obtain ⟨ek, ev⟩ := e
    intro c hk
    simp only [List.map_cons, List.mem_cons, not_or] at hk
    by_cases he : ev = []
    · simp [sweepLoop, he, ih c hk.2]
    · cases hesc : (saveLoop w (alGetD c.db_alias_cache ek [])).2 with
      | some e =>
          simp [sweepLoop, he, mysql_save, hesc,
            alGet_alSet_ne _ _ (fun hke => hk.1 hke.symm)]
      | none =>
          simp only [sweepLoop, if_neg he, mysql_save, hesc]
          rw [ih _ hk.2]
          exact alGet_alSet_ne _ _ (fun hke => hk.1 hke.symm)

/-- The `for alias in ...` loop of `_save`, when no alias's connection
acquisition raises: every alias is attempted in order, an execution error
is recorded as a rollback for that alias alone, and nothing escapes. -/
theorem saveLoop_eq_of_no_acquire_error (w : String → AliasOutcome)
    (aliases : List String)
    (h : ∀ a ∈ aliases, (w a).isAcquireError = false) :
    saveLoop w aliases = (aliases.map (fun a => (a, (w a).toResult)), none) := by
  induction aliases with
  | nil => rfl
  | cons a rest ih =>
    have ha := h a (List.mem_cons_self a rest)
    have hr := ih (fun b hb => h b (List.mem_cons_of_mem a hb))
    cases hwa : w a with
    | acquireError e =>
        rw [hwa] at ha
        exact absurd ha (by simp [AliasOutcome.isAcquireError])
    | execError e => simp [saveLoop, hwa, hr, AliasOutcome.toResult]
    | ok n => simp [saveLoop, hwa, hr, AliasOutcome.toResult]

/-- Under an oracle with no acquisition errors, no exception escapes
`_save`. -/
theorem mysql_save_esc_none (c : ItemCache) (cache_key : String)
    (w : String → AliasOutcome)
    (hw : ∀ a, (w a).isAcquireError = false) :
    (mysql_save c cache_key w).2.2 = none := by
  have he := saveLoop_eq_of_no_acquire_error w
    (alGetD c.db_alias_cache cache_key []) (fun a _ => hw a)
  simp [mysql_save, he]

/-- The sweep over a dict whose entries the cache currently holds, when no
connection acquisition raises (so no `_save` call aborts it): it emits one
flush event, carrying the full buffer, for each non-empty group in order,
skips empty ones, and leaves every group's buffer empty. -/
theorem sweepLoop_spec (w : String → AliasOutcome)
    (hw : ∀ a, (w a).isAcquireError = false)
    (l : List (String × List Row)) :
    ∀ c : ItemCache, (l.map Prod.fst).Nodup →
      (∀ q ∈ l, alGet c.item_cache q.1 = some q.2) →
      (sweepLoop w c l).2.1 =
        (l.filter (fun e => decide (e.2 ≠ []))).map
          (fun e => Event.flush e.1 e.2) ∧
      ∀ q ∈ l, alGet (sweepLoop w c l).1.item_cache q.1 = some [] := by
  induction l with
  | nil => exact fun c _ _ => ⟨rfl, by simp⟩
  | cons e rest ih =>
    obtain ⟨ek, ev⟩ := e
    intro c hnd hinv
    simp only [List.map_cons, List.nodup_cons] at hnd
    have hk : alGet c.item_cache ek = some ev :=
      hinv (ek, ev) (List.mem_cons_self _ _)
    by_cases he : ev = []
    · subst he
      obtain ⟨ht, hb⟩ := ih c hnd.2 (fun q hq => hinv q (List.mem_cons_of_mem _ hq))
      refine ⟨by simp [sweepLoop, ht], ?_⟩
      intro q hq
      rcases List.mem_cons.mp hq with h | h
      · subst h
        rw [show (sweepLoop w c (((ek : String), ([] : List Row)) :: rest)) =
          sweepLoop w c rest from by simp [sweepLoop]]
        rw [sweepLoop_preserves w rest ek c hnd.1]
        exact hk
      · simpa [sweepLoop] using hb q h
    · have hesc : (mysql_save c ek w).2.2 = none := mysql_save_esc_none c ek w hw
      have hsave : (mysql_save c ek w).1.item_cache = alSet c.item_cache ek [] := rfl
      have hinv' : ∀ q ∈ rest, alGet (mysql_save c ek w).1.item_cache q.1 = some q.2 := by
        intro q hq
        have hne : ek ≠ q.1 := fun hke =>
          hnd.1 (by rw [hke]; exact List.mem_map_of_mem Prod.fst hq)
        rw [hsave, alGet_alSet_ne _ _ hne]
        exact hinv q (List.mem_cons_of_mem _ hq)
      obtain ⟨ht, hb⟩ := ih (mysql_save c ek w).1 hnd.2 hinv'
      refine ⟨?_, ?_⟩
      · simp [sweepLoop, he, hesc, ht, alGetD, hk]
      · intro q hq
        rcases List.mem_cons.mp hq with h | h
        · subst h
          simp only [sweepLoop, if_neg he, hesc]
          rw [sweepLoop_preserves w rest ek _ hnd.1, hsave, alGet_alSet_self]
        · simpa [sweepLoop, he, hesc] using hb q h

/-! ## Test fixtures: small concrete states used by witnesses -/

/-- A record for table `t` with engine fields `ab`, `c`. -/
def collideItem1 : Dict PyVal :=
  [("save_table_name", .vStr "t"), ("ab", .vInt 1), ("c", .vInt 2)]

/-- A structurally different record whose composite key coincides with
`collideItem1`'s. -/
def collideItem2 : Dict PyVal :=
  [("save_table_name", .vStr "t"), ("a", .vInt 3), ("bc", .vInt 4)]

/-- The cache after admitting `collideItem1` into a fresh MySQL cache. -/
def collideCache : ItemCache :=
  (parse_item_to_cache (ItemCache.init "mysql") collideItem1).1

/-- A cache with one group for table `t` routed to aliases `a` and `b`. -/
def twoAliasCache : ItemCache :=
  (parse_item_to_cache (ItemCache.init "mysql")
    [("save_table_name", .vStr "t"), ("save_db_alias", .vStrList ["a", "b"]),
      ("id", .vInt 1)]).1

/-- An oracle under which alias `a`'s write raises a constraint violation
and every other alias's write succeeds. -/
def oneFailOracle : String → AliasOutcome :=
  fun a => if a = "a" then .execError "Duplicate entry" else .ok 2

/-- A controller with threshold 2 whose cache already buffers one row for
table `t`. -/
def c1Pipeline : Pipeline :=
  { cache_num := 2, save_cache_interval := 10,
    cache := (parse_item_to_cache (ItemCache.init "mysql")
      [("save_table_name", .vStr "t"), ("id", .vInt 1)]).1 }

/-- A second record for the same group as `c1Pipeline`'s buffered row. -/
def c1Item : Dict PyVal := [("save_table_name", .vStr "t"), ("id", .vInt 2)]

/-- `c1Pipeline`'s cache after admitting `c1Item`. -/
def c1After : ItemCache := (parse_item_to_cache c1Pipeline.cache c1Item).1

/-- Two data parts sharing fields `id`, `name`. -/
def c4Datas : List (Dict PyVal) :=
  [[("id", .vInt 1), ("name", .vStr "x")], [("id", .vInt 2), ("name", .vStr "y")]]

/-- The statement built for `c4Datas`'s group. -/
def c4Sql : String := "INSERT INTO t (id,name) VALUES (%s,%s)"

/-! ## Theorems for the claims -/

/-- C9: the GroupKey derivation is not injective. Field lists `["ab","c"]`
and `["a","bc"]` (same update fields, mode and table) concatenate to the
same composite key, and so do the field/update-field splits
`(["a"],["b"])` and `(["a","b"],[])`, because the key is built by plain
string concatenation of field names, update fields, write mode and table
name. -/
theorem deriveKey_not_injective :
    deriveKey ["ab", "c"] [] "insert" "t" = deriveKey ["a", "bc"] [] "insert" "t" ∧
    (["ab", "c"] : List String) ≠ ["a", "bc"] ∧
    deriveKey ["a"] ["b"] "insert" "t" = deriveKey ["a", "b"] [] "insert" "t" ∧
    ((["a"], ["b"]) : List String × List String) ≠ (["a", "b"], []) :=
  ⟨rfl, by decide, rfl, by decide⟩

/-- C10: a record whose composite key collides with an existing group but
whose field set differs is rejected when its row values are looked up by
the group's originally stored field list: after admitting a record with
fields `ab`, `c`, admitting one with fields `a`, `bc` (same key) raises
`KeyError: ab` and leaves the cache — in particular every row buffer —
exactly unchanged. -/
theorem parse_collision_keyerror :
    parse_item_to_cache collideCache collideItem2 =
      (collideCache, .error "KeyError: ab") ∧
    (parse_item_to_cache (ItemCache.init "mysql") collideItem1).2 =
      .ok ("abcinsertt", 1) ∧
    (parse_item_to_cache (ItemCache.init "mysql") collideItem2).2 =
      .ok ("abcinsertt", 1) := by
  refine ⟨?_, rfl, rfl⟩
  rfl

/-- C6 (code bug): for an unregistered (dialect, mode) pair the statement
builder does fail synchronously at statement-build time, but with an
`AttributeError` rather than the descriptive unsupported-mode message:
`SqlFormat.__call__` evaluates `getattr(self, f'{db_type}_{insert_type}')`
without a default, which raises `AttributeError` for a missing attribute,
so the `raise Exception(f"不支持该写入类型： ...")` line is unreachable. -/
theorem get_sql_unregistered_attribute_error :
    get_sql "t" ["a"] [] "mysql" "replace" =
      .error "AttributeError: SqlFormat object has no attribute mysql_replace" ∧
    ("AttributeError: SqlFormat object has no attribute mysql_replace" : String) ≠
      unsupportedModeMsg "mysql" "replace" :=
  ⟨rfl, by decide⟩

/-- C7: for a non-empty field list, the upsert builder returns exactly the
plain-insert text extended by an `ON DUPLICATE KEY UPDATE` clause that
reassigns each update field (all fields when `update_fields` is empty) to
the incoming `VALUES(...)` for that column. -/
theorem mysql_update_insert_extends_insert (t : String) (F U : List String)
    (h : F ≠ []) :
    mysql_update_insert t F U =
      mysql_insert t F ++ " ON DUPLICATE KEY UPDATE " ++
        String.intercalate ","
          ((if U = [] then F else U).map (fun k => k ++ " = VALUES(" ++ k ++ ")")) := by
  unfold mysql_update_insert mysql_insert
  have hlit : (")" : String) ++ " ON DUPLICATE KEY UPDATE " =
      ") ON DUPLICATE KEY UPDATE " := rfl
  rw [← hlit]
  simp [String.append_assoc]

/-- Witness for C7 at `t`, fields `["a","b"]`, empty update fields. -/
theorem mysql_update_insert_extends_insert_witness :
    (["a", "b"] : List String) ≠ [] ∧
    mysql_update_insert "t" ["a", "b"] [] =
      mysql_insert "t" ["a", "b"] ++ " ON DUPLICATE KEY UPDATE " ++
        String.intercalate ","
          ((if ([] : List String) = [] then ["a", "b"] else []).map
            (fun k => k ++ " = VALUES(" ++ k ++ ")")) :=
  ⟨by decide, mysql_update_insert_extends_insert "t" ["a", "b"] [] (by decide)⟩

/-- C1: a successful accept appends exactly one row for the record to its
group's buffer (the returned count being the resulting buffer length), and
`save_item` flushes that group immediately exactly when that resulting
length reaches or exceeds the threshold `cache_num` — the flush draining
exactly the buffered rows and leaving the buffer empty — while an accept
whose resulting length is below the threshold performs no flush and leaves
the cache exactly as the admit left it. -/
theorem save_item_threshold (p : Pipeline) (w : String → AliasOutcome)
    (item : Dict PyVal) (c' : ItemCache) (key : String) (cnt : Nat)
    (hwf : p.cache.Wf)
    (h : parse_item_to_cache p.cache item = (c', .ok (key, cnt))) :
    (∃ row, alGetD c'.item_cache key [] = alGetD p.cache.item_cache key [] ++ [row] ∧
      cnt = (alGetD c'.item_cache key []).length) ∧
    (cnt ≥ p.cache_num →
      (save_item p w item).2.2 = [.flush key (alGetD c'.item_cache key [])] ∧
      alGetD (save_item p w item).1.cache.item_cache key [] = []) ∧
    (cnt < p.cache_num →
      (save_item p w item).2.2 = [] ∧
      (save_item p w item).1.cache = c') := by
  obtain ⟨row, hrow, hcnt⟩ := parse_ok_appends hwf h
  refine ⟨⟨row, hrow, by rw [hrow, hcnt]; simp⟩, ?_, ?_⟩
  · intro hge
    simp only [save_item, h]
    rw [if_pos hge]
    exact ⟨rfl, by simp [mysql_save, alGetD, alGet_alSet_self]⟩
  · intro hlt
    simp only [save_item, h]
    rw [if_neg (by omega)]
    exact ⟨rfl, rfl⟩

/-- Witness for C1: threshold 2, one row already buffered for table `t`;
accepting a second record makes the resulting length 2, triggers the flush
draining both rows, and empties the buffer. -/
theorem save_item_threshold_witness :
    c1Pipeline.cache.Wf ∧
    parse_item_to_cache c1Pipeline.cache c1Item = (c1After, .ok ("idinsertt", 2)) ∧
    ((∃ row, alGetD c1After.item_cache "idinsertt" [] =
        alGetD c1Pipeline.cache.item_cache "idinsertt" [] ++ [row] ∧
      2 = (alGetD c1After.item_cache "idinsertt" []).length) ∧
    (2 ≥ c1Pipeline.cache_num →
      (save_item c1Pipeline oneFailOracle c1Item).2.2 =
        [.flush "idinsertt" (alGetD c1After.item_cache "idinsertt" [])] ∧
      alGetD (save_item c1Pipeline oneFailOracle c1Item).1.cache.item_cache
        "idinsertt" [] = []) ∧
    (2 < c1Pipeline.cache_num →
      (save_item c1Pipeline oneFailOracle c1Item).2.2 = [] ∧
      (save_item c1Pipeline oneFailOracle c1Item).1.cache = c1After)) :=
  ⟨by decide, rfl,
    save_item_threshold c1Pipeline oneFailOracle c1Item c1After "idinsertt" 2
      (by decide) rfl⟩

/-- C4: admitting any non-empty sequence of records sharing the same
target table, field-name list, update-field list and write mode into a
fresh cache produces exactly one group; its buffer holds one row per
record in arrival order, each row's values positioned according to the
group's stored field list `F`. -/
theorem admitSeq_same_signature (tbl mode sql : String) (upd F : List String)
    (datas : List (Dict PyVal)) (hne : datas ≠ [])
    (hd : ∀ d ∈ datas, d.map Prod.fst = F)
    (hctl : ∀ f ∈ F, f ∉ controlKeys)
    (hsql : get_sql tbl F upd "mysql" mode = .ok sql) :
    admitSeq (ItemCache.init "mysql") (datas.map (mkItem tbl mode upd)) =
      groupCache "mysql" tbl mode sql upd F ["default"] (datas.map (rowOf F)) := by
  cases datas with
  | nil => exact absurd rfl hne
  | cons d rest =>
    have hstep := parse_mkItem_init tbl mode sql upd F d
      (hd d (List.mem_cons_self d rest)) hctl hsql
    simp only [List.map_cons, admitSeq, hstep]
    rw [admitSeq_group_aux tbl mode sql upd F ["default"] rest [rowOf F d]
      (fun d' hd' => hd d' (List.mem_cons_of_mem d hd')) hctl]
    simp

/-- Witness for C4: two records with fields `id`, `name` for table `t`,
mode `insert`. -/
theorem admitSeq_same_signature_witness :
    (c4Datas ≠ []) ∧
    (∀ d ∈ c4Datas, d.map Prod.fst = ["id", "name"]) ∧
    (∀ f ∈ ["id", "name"], f ∉ controlKeys) ∧
    (get_sql "t" ["id", "name"] [] "mysql" "insert" = .ok c4Sql) ∧
    admitSeq (ItemCache.init "mysql") (c4Datas.map (mkItem "t" "insert" [])) =
      groupCache "mysql" "t" "insert" c4Sql [] ["id", "name"] ["default"]
        (c4Datas.map (rowOf ["id", "name"])) :=
  ⟨by decide, by decide, by decide, rfl,
    admitSeq_same_signature "t" "insert" c4Sql [] ["id", "name"] c4Datas
      (by decide) (by decide) (by decide) rfl⟩

/-- C2: `_save` resets the flushed group's row buffer to empty and touches
nothing else, for every possible per-alias outcome assignment — including
ones where some alias fails or the connection acquisition raises. The
drained rows appear nowhere in the resulting state, so they are never
re-buffered or replayed; every flush path (threshold, periodic sweep,
shutdown drain) goes through this function. -/
theorem mysql_save_clears_buffer (c : ItemCache) (cache_key : String)
    (w : String → AliasOutcome) :
    (mysql_save c cache_key w).1.item_cache = alSet c.item_cache cache_key [] ∧
    alGet (mysql_save c cache_key w).1.item_cache cache_key = some [] ∧
    (mysql_save c cache_key w).1.fields_cache = c.fields_cache ∧
    (mysql_save c cache_key w).1.table_cache = c.table_cache ∧
    (mysql_save c cache_key w).1.insert_sql_cache = c.insert_sql_cache ∧
    (mysql_save c cache_key w).1.db_alias_cache = c.db_alias_cache ∧
    (mysql_save c cache_key w).1.db_type = c.db_type :=
  ⟨rfl, alGet_alSet_self _ _ _, rfl, rfl, rfl, rfl, rfl⟩

/-- C5: a record without `save_table_name`, or carrying it with value
`None`, is rejected by the very first statements of
`parse_item_to_cache`: the call raises and the returned cache is the input
cache unchanged — no group created or modified, every buffer intact. -/
theorem parse_missing_table_rejects (c : ItemCache) (item : Dict PyVal)
    (h : alGet item "save_table_name" = none ∨
      alGet item "save_table_name" = some .vNone) :
    (parse_item_to_cache c item).1 = c ∧
    ∃ e, (parse_item_to_cache c item).2 = Except.error e := by
  rcases h with h | h <;> simp [parse_item_to_cache, h]

/-- Witness for C5: a record with one data column and no
`save_table_name`. -/
theorem parse_missing_table_rejects_witness :
    (parse_item_to_cache (ItemCache.init "mysql") [("a", PyVal.vInt 1)]).1 =
      ItemCache.init "mysql" ∧
    ∃ e, (parse_item_to_cache (ItemCache.init "mysql") [("a", PyVal.vInt 1)]).2 =
      Except.error e :=
  parse_missing_table_rejects _ _ (Or.inl rfl)

/-- C3: during a flush in which every alias's connection can be acquired, a
write failure against one alias is caught inside `_save` for that alias
only — recorded as a rollback of that alias's transaction — every
remaining alias still attempts its write (the report lists every alias of
the group, in order), and no exception escapes the flush call. -/
theorem mysql_save_fault_isolation (c : ItemCache) (cache_key : String)
    (w : String → AliasOutcome)
    (h : ∀ a ∈ alGetD c.db_alias_cache cache_key [], (w a).isAcquireError = false) :
    (mysql_save c cache_key w).2.2 = none ∧
    (mysql_save c cache_key w).2.1 =
      (alGetD c.db_alias_cache cache_key []).map (fun a => (a, (w a).toResult)) := by
  have he := saveLoop_eq_of_no_acquire_error w _ h
  constructor <;> simp [mysql_save, he]

/-- C8 counterexample: `close_spider` with one non-empty group and a live
periodic task issues the cancellation as its very first action — the trace
is `[cancelTask, flush ...]` — so the cancellation does not happen after
the final sweep, contradicting the claim that it happens during shutdown
drain after the final sweep. -/
theorem close_spider_cancel_precedes_drain :
    (close_spider c1Pipeline true (fun _ => .ok 1)).2.1 =
      [Event.cancelTask, Event.flush "idinsertt" [[.vInt 1]]] ∧
    (close_spider c1Pipeline true (fun _ => .ok 1)).2.1.getLast? ≠
      some Event.cancelTask :=
  ⟨by decide, by decide⟩

/-- C8 (amended): `close_spider` first cancels the periodic task (when one
exists) and only then performs the shutdown drain; provided no connection
acquisition raises (an acquisition error escaping `_save` would abort the
rest of the drain), the drain flushes every group whose buffer is
non-empty exactly once, in dict order, skipping empty groups, and leaves
every group's buffer empty; the cancellation is issued before the final
sweep, not after it. -/
theorem close_spider_drains_each_group_once (p : Pipeline)
    (w : String → AliasOutcome)
    (hw : ∀ a, (w a).isAcquireError = false)
    (hnd : (p.cache.item_cache.map Prod.fst).Nodup) :
    (close_spider p true w).2.1 =
      Event.cancelTask ::
        (p.cache.item_cache.filter (fun e => decide (e.2 ≠ []))).map
          (fun e => Event.flush e.1 e.2) ∧
    ∀ e ∈ p.cache.item_cache,
      alGet (close_spider p true w).1.cache.item_cache e.1 = some [] := by
  obtain ⟨ht, hb⟩ := sweepLoop_spec w hw p.cache.item_cache p.cache hnd
    (fun q hq => alGet_of_mem_nodup hnd hq)
  constructor
  · simp [close_spider, Pipeline.close, ht]
  · intro e he
    simpa [close_spider, Pipeline.close] using hb e he

/-- Witness for C8 (amended) on a cache with a single non-empty group,
under an oracle (one write failure, otherwise successes) that never fails
acquisition. -/
theorem close_spider_drains_each_group_once_witness :
    (∀ a, (oneFailOracle a).isAcquireError = false) ∧
    (c1Pipeline.cache.item_cache.map Prod.fst).Nodup ∧
    ((close_spider c1Pipeline true oneFailOracle).2.1 =
      Event.cancelTask ::
        (c1Pipeline.cache.item_cache.filter (fun e => decide (e.2 ≠ []))).map
          (fun e => Event.flush e.1 e.2) ∧
    ∀ e ∈ c1Pipeline.cache.item_cache,
      alGet (close_spider c1Pipeline true oneFailOracle).1.cache.item_cache
        e.1 = some []) :=
  ⟨fun a => by unfold oneFailOracle
               by_cases h : a = "a" <;> simp [h, AliasOutcome.isAcquireError],
    by decide,
    close_spider_drains_each_group_once c1Pipeline oneFailOracle
      (fun a => by
        unfold oneFailOracle
        by_cases h : a = "a" <;> simp [h, AliasOutcome.isAcquireError])
      (by decide)⟩

/-- Witness for C3: two aliases `a`, `b`; `a`'s write raises a constraint
violation, `b`'s succeeds — one rollback, one commit, both attempted,
nothing escapes. -/
theorem mysql_save_fault_isolation_witness :
    (∀ a ∈ alGetD twoAliasCache.db_alias_cache "idinsertt" [],
      (oneFailOracle a).isAcquireError = false) ∧
    (mysql_save twoAliasCache "idinsertt" oneFailOracle).2.2 = none ∧
    (mysql_save twoAliasCache "idinsertt" oneFailOracle).2.1 =
      (alGetD twoAliasCache.db_alias_cache "idinsertt" []).map
        (fun a => (a, (oneFailOracle a).toResult)) :=
  ⟨by decide, mysql_save_fault_isolation _ _ _ (by decide)⟩

end AioDb
